import Mathlib

/-!
Verification development for the salty-server forecast core.

Each Python function relevant to the frozen claims is shallowly embedded as a
Lean definition:

* `src/services/wave_data_processor.py` — `_load_forecast_dataset` (model-run
  latency gate, per-run file gathering, cross-run timestamp dedup, the
  process-wide dataset cache) and the grouped-completeness rules of
  `process_station_forecast`;
* `src/features/wind/services/gfs_wind_client.py` — `_calculate_wind`,
  `_get_grib_file`, `get_station_wind_forecast`;
* `src/features/wind/utils/file_storage.py` — `get_file_path`,
  `is_file_valid`, `cleanup_old_files`.

Machine integers do not occur (Python ints are unbounded); times are modelled
as minutes since an epoch (`Int`), physical quantities as `ℚ` (the claims under
test are about control flow, presence and ordering, not float rounding).
I/O (HTTP fetches, GRIB parsing, the filesystem) is passed in as explicit
oracle functions, so every definition stays executable.
-/

/-! ## Stable sort by an integer key, and first-wins deduplication

`_load_forecast_dataset` sorts the collected `(forecast_time, dataset)` pairs
with Python's stable `list.sort` and then keeps the first entry for each
timestamp (`if time not in unique_datasets`).  Python's stable ascending sort
is embedded as an insertion sort that inserts each element *after* all
already-placed elements with a key less than its own and *before* those with a
key greater or equal, which preserves the relative order of equal keys. -/

def insertByKey {α : Type} (k : α → Int) (x : α) : List α → List α
  | [] => [x]
  | y :: ys => if k y < k x then y :: insertByKey k x ys else x :: y :: ys

def sortByKey {α : Type} (k : α → Int) : List α → List α
  | [] => []
  | x :: xs => insertByKey k x (sortByKey k xs)

/-- First-wins deduplication by key: keeps the first element of each key class
(the semantics of inserting into a Python dict only when the key is absent). -/
def dedupByKey {α : Type} (k : α → Int) : List α → List α
  | [] => []
  | x :: xs => x :: dedupByKey k (xs.filter fun y => decide (k y ≠ k x))
termination_by l => l.length
decreasing_by
  simp only [List.length_cons]
  exact Nat.lt_succ_of_le (List.length_filter_le _ _)

/-! ## Grid slices and the dataset assembler

One grid slice per forecast hour, tagged with its absolute timestamp
(`run_time + timedelta(hours=hour)`, in minutes) and an abstract payload
identifying its contents. -/

structure Slice where
  time : Int
  data : Nat
deriving DecidableEq, Repr

/-- First-wins deduplication phrased exactly like the source's dict insertion:
walk the list carrying the set of keys already inserted, keeping an element
only when its key is new (`if time not in unique_datasets`). -/
def dedupSeen {α : Type} (k : α → Int) : List Int → List α → List α
  | _, [] => []
  | seen, x :: xs =>
    if k x ∈ seen then dedupSeen k seen xs
    else x :: dedupSeen k (k x :: seen) xs

/-- The merge step of `_load_forecast_dataset` (lines 136-148): stable-sort all
collected slices by timestamp, then keep the first slice seen for each
timestamp (`unique_datasets` dict, first-wins over the sorted list). -/
def assembleDatasets (l : List Slice) : List Slice :=
  dedupSeen Slice.time [] (sortByKey Slice.time l)

/-! ## `_load_forecast_dataset` (src/services/wave_data_processor.py)

Wall-clock instants and nominal cycle times are minutes since an epoch; a model
run is a pair `(date, hour)` with `date` a day index and `hour` the cycle hour,
mirroring the `(date, model_run)` string pair of the source.  The class-level
cache `WaveDataProcessor._cached_dataset` / `_cached_model_run` becomes
`LoadState`.  File existence and GRIB parsing become oracles keyed the way the
source keys them: the constructed filename
`gfswave.t{run_hour}z.{model}.f{hour}.grib2` contains only the run hour and the
forecast hour, so both oracles take `(run hour, forecast hour)`. -/

structure LoadState where
  cachedDataset : Option (List Slice)
  cachedModelRun : Option Int
deriving DecidableEq, Repr

/-- Modelled from the spec: `settings.model_runs` (core/config is not under
src/); §4.1 fixes the nominal cycle hours to {00, 06, 12, 18}. -/
def modelRunsConfig : List Int := [0, 6, 12, 18]

/-- Nominal time (minutes) of a run `(date, hour)`:
`datetime.strptime(f"{date} {hour}00", ...)`. -/
def nominalTime (r : Int × Int) : Int := r.1 * 1440 + r.2 * 60

/-- The previous-cycle candidate (lines 71-77): six hours earlier on the same
day, rolling back to the previous day's 18Z cycle when the hour would leave
the configured set. -/
def prevRunOf (date runHour : Int) : Int × Int :=
  if runHour - 6 ∈ modelRunsConfig then (date, runHour - 6) else (date - 1, 18)

/-- The runs to load (lines 63-84): the requested run if at least 3h30m
(210 minutes) past its nominal time, then the previous cycle under the same
latency gate. -/
def neededRuns (date runHour now : Int) : List (Int × Int) :=
  (if 210 ≤ now - nominalTime (date, runHour) then [(date, runHour)] else []) ++
  (if 210 ≤ now - nominalTime (prevRunOf date runHour) then [prevRunOf date runHour]
   else [])

/-- The per-run file loop (lines 94-130).  For each needed run: filter the
configured forecast hours to those within `max_hours` (120 for the requested
run, 24 otherwise) whose file exists, then open each file.  A failed open is
skipped when an earlier open in this call has succeeded (the `except` handler
closes the previously bound `ds` and continues); when no open has succeeded yet
the handler itself raises (it reads the still-unbound `ds`), which the outer
`except` of `_load_forecast_dataset` absorbs — modelled as `Except.error`. -/
def openRunFiles (openSlice : Int → Nat → Option Nat) (runTime rh : Int) :
    List Nat → List Slice → Bool → Except Unit (List Slice × Bool)
  | [], acc, anyOpened => .ok (acc, anyOpened)
  | h :: rest, acc, anyOpened =>
    match openSlice rh h with
    | some d => openRunFiles openSlice runTime rh rest
        (acc ++ [⟨runTime + 60 * (h : Int), d⟩]) true
    | none =>
      if anyOpened then openRunFiles openSlice runTime rh rest acc anyOpened
      else .error ()

def collectSlices (date runHour : Int) (fileExists : Int → Nat → Bool)
    (openSlice : Int → Nat → Option Nat) (forecastHours : List Nat) :
    List (Int × Int) → List Slice → Bool → Except Unit (List Slice × Bool)
  | [], acc, anyOpened => .ok (acc, anyOpened)
  | (rd, rh) :: rest, acc, anyOpened =>
    let maxHours : Nat := if rd = date ∧ rh = runHour then 120 else 24
    let hs := forecastHours.filter (fun h => decide (h ≤ maxHours) && fileExists rh h)
    match openRunFiles openSlice (nominalTime (rd, rh)) rh hs acc anyOpened with
    | .error () => .error ()
    | .ok (acc2, any2) =>
      collectSlices date runHour fileExists openSlice forecastHours rest acc2 any2

/-- `_load_forecast_dataset` (lines 47-166).  Returns the forecast dataset (or
`none`) together with the updated class-level cache state:

* cache hit (line 48) when a dataset is cached and `_cached_model_run` equals
  the requested cycle-hour — the requested date is not compared;
* no usable run (line 86-88): `none`, cache untouched;
* an exception while loading (see `openRunFiles`): the outer handler returns
  whatever dataset is cached, for any run, or `none` (lines 161-166);
* no slice loaded (lines 132-134): `none`, cache untouched;
* otherwise assemble, overwrite the cache wholesale with the new dataset and
  the requested cycle-hour (lines 153-154). -/
def loadForecastDataset (st : LoadState) (date runHour now : Int)
    (fileExists : Int → Nat → Bool) (openSlice : Int → Nat → Option Nat)
    (forecastHours : List Nat) : Option (List Slice) × LoadState :=
  if st.cachedDataset.isSome ∧ st.cachedModelRun = some runHour then
    (st.cachedDataset, st)
  else
    let runs := neededRuns date runHour now
    if runs.isEmpty then (none, st)
    else
      match collectSlices date runHour fileExists openSlice forecastHours runs [] false with
      | .error () => (st.cachedDataset, st)
      | .ok (slices, _) =>
        if slices.isEmpty then (none, st)
        else
          let combined := assembleDatasets slices
          (some combined, ⟨some combined, some runHour⟩)

/-! ## `process_station_forecast` — response skeleton (lines 168-191, 311-329)

Only the branch structure around the loader result matters for the claims: a
`none` dataset yields a response with an empty forecast list and an explicit
"no_data" status; a loaded dataset yields the per-timestamp records (built by
the extraction pipeline, abstracted as `build`) and no status marker. -/

structure StationResponse where
  stationId : String
  forecasts : List Nat
  status : Option String
deriving DecidableEq, Repr

def processStationForecast (stationId : String) (loaded : Option (List Slice))
    (build : List Slice → List Nat) : StationResponse :=
  match loaded with
  | none => ⟨stationId, [], some "no_data"⟩
  | some ds => ⟨stationId, build ds, none⟩

/-! ## `_calculate_wind` (src/features/wind/services/gfs_wind_client.py, 119-130)

The direction expression is embedded literally over `ℚ` (every constant in the
source is exactly representable):
`(270 - (180/3.14159)*(v > 0)*3.14159 + (180/3.14159)*(v < 0)*3.14159) % 360`,
with Python booleans coerced to `1`/`0` by the multiplication and `%` the
floored modulus Python applies to floats.  `round(x, 2)` is embedded as
half-up rounding to two decimals (Python uses half-to-even; the two agree away
from exact ties, and every value reached in the theorems below is an exact
integer).  The speed is embedded over `ℝ` because of the square root. -/

def pyBoolToRat (p : Prop) [Decidable p] : ℚ := if p then 1 else 0

def pyModQ (a b : ℚ) : ℚ := a - b * ⌊a / b⌋

def roundTo2 (x : ℚ) : ℚ := (round (100 * x) : ℤ) / 100

def calculateWindDirection (u v : ℚ) : ℚ :=
  roundTo2 (pyModQ
    (270 - (180 / 3.14159) * pyBoolToRat (0 < v) * 3.14159
       + (180 / 3.14159) * pyBoolToRat (v < 0) * 3.14159) 360)

noncomputable def calculateWindSpeed (u v : ℝ) : ℝ :=
  ((round (100 * Real.sqrt (u * u + v * v)) : ℤ) : ℝ) / 100

/-- The two-argument arctangent, range `(-π, π]`, as used by the spec sentence
for this claim ("an atan2-equivalent rule over (u, v)"). -/
noncomputable def atan2 (y x : ℝ) : ℝ :=
  if 0 < x then Real.arctan (y / x)
  else if x < 0 then
    (if 0 ≤ y then Real.arctan (y / x) + Real.pi else Real.arctan (y / x) - Real.pi)
  else
    (if 0 < y then Real.pi / 2 else if y < 0 then -(Real.pi / 2) else 0)

noncomputable def pyModR (a b : ℝ) : ℝ := a - b * ⌊a / b⌋

/-- The direction the claim specifies: `(270 − atan2(v, u)·180/π) mod 360`. -/
noncomputable def claimedWindDirection (u v : ℝ) : ℝ :=
  pyModR (270 - atan2 v u * (180 / Real.pi)) 360

/-! ## File storage (src/features/wind/utils/file_storage.py) -/

def padZeros (width : Nat) (n : Nat) : String :=
  let s := toString n
  String.mk (List.replicate (width - s.length) '0') ++ s

/-- `get_file_path` (lines 20-24): deterministic name under the base directory
from (station, run date string, cycle hour, forecast hour). -/
def getFilePath (stationId dateStr : String) (cycleHour forecastHour : Nat) : String :=
  "downloaded_data/gfs/" ++ "gfs_wind_" ++ stationId ++ "_" ++ dateStr ++ "_" ++
    padZeros 2 cycleHour ++ "z_f" ++ padZeros 3 forecastHour ++ ".grib2"

/-- `is_file_valid` (lines 26-28): existence is the only validity signal. -/
def isFileValid (fileExistsOnDisk : Bool) : Bool := fileExistsOnDisk

/-- The `current_pattern` string of `cleanup_old_files` (line 44), glob
wildcards included. -/
def currentPattern (dateStr : String) (cycleHour : Nat) : String :=
  "*_" ++ dateStr ++ "_" ++ padZeros 2 cycleHour ++ "z_*.grib2"

/-- Python's substring containment (`in` on str). -/
def substrCheck (pat : List Char) : List Char → Bool
  | [] => pat.isEmpty
  | c :: rest => pat.isPrefixOf (c :: rest) || substrCheck pat rest

/-- `cleanup_old_files` (lines 41-56) deletes a cached `.grib2` file exactly
when `current_pattern not in str(file_path)` — a substring test of the glob
pattern against the path. -/
def cleanupDeletes (dateStr : String) (cycleHour : Nat) (path : String) : Bool :=
  !(substrCheck (currentPattern dateStr cycleHour).toList path.toList)

/-! ## `_get_grib_file` (src/features/wind/services/gfs_wind_client.py, 77-117)

The network interaction is an oracle outcome: an HTTP response with a status
code and a payload size, a timeout, or a transport error; the subsequent
`save_file` result is a second oracle bit. -/

inductive FetchOutcome where
  | http : Nat → Nat → FetchOutcome
  | timeout : FetchOutcome
  | transportError : FetchOutcome
deriving DecidableEq, Repr

def getGribFile (cachedExists : Bool) (path : String) (outcome : FetchOutcome)
    (saveOk : Bool) : Option String :=
  if cachedExists then some path
  else
    match outcome with
    | .timeout => none
    | .transportError => none
    | .http status len =>
      if status = 404 then none
      else if status ≠ 200 then none
      else if len < 100 then none
      else if saveOk then some path else none

/-! ## `get_station_wind_forecast` (src/features/wind/services/gfs_wind_client.py, 175-250)

The per-hour pipeline (URL build, `_get_grib_file`, `_process_grib_data`,
`_calculate_wind`, unit conversion) is abstracted into one oracle
`fetch : hour → Option WindPoint`; any exception inside an hour's iteration is
caught and counted as a failed hour (`continue`), i.e. `none`.  A missing model
run raises 503 before the loop; an empty forecast list raises 503 after it. -/

structure WindPoint where
  time : Int
  speed : ℚ
  direction : ℚ
  gust : ℚ
deriving DecidableEq, Repr

/-- `range(0, 169, 3)`: forecast hours 0, 3, ..., 168. -/
def windForecastHours : List Nat := (List.range 57).map (fun k => 3 * k)

def getStationWindForecast (modelRun : Option Unit)
    (fetch : Nat → Option WindPoint) : Except Unit (List WindPoint) :=
  match modelRun with
  | none => .error ()
  | some _ =>
    let forecasts := windForecastHours.filterMap fetch
    if forecasts.isEmpty then .error ()
    else .ok (sortByKey WindPoint.time forecasts)

/-! ## Nearest grid index (src/services/wave_data_processor.py, 202-209, and
the wind client's `_process_grib_data`, gfs_wind_client.py, 158-160)

`abs(grid - x).argmin()`: the first index attaining the minimal absolute
difference, one independent 1-D search per axis.  The two call sites differ on
longitude handling: the wave path first maps a negative station longitude into
the 0-360 convention (lines 205-206); the wind client normalizes only the
local variable used to build the download URL (lines 50-51) and runs its
argmin on the raw signed longitude. -/

def argminList : List ℚ → Option (Nat × ℚ)
  | [] => none
  | a :: rest =>
    match argminList rest with
    | none => some (0, a)
    | some (j, v) => if v < a then some (j + 1, v) else some (0, a)

def argmin (l : List ℚ) : Nat := ((argminList l).map Prod.fst).getD 0

def normalizeLon (lon : ℚ) : ℚ := if lon < 0 then lon + 360 else lon

/-- The wave-path lookup (wave_data_processor.py, 202-209): longitude is
normalized into 0-360 before the search. -/
def waveNearestIndex (lats lons : List ℚ) (lat lon : ℚ) : Nat × Nat :=
  (argmin (lats.map (fun g => |g - lat|)),
   argmin (lons.map (fun g => |g - normalizeLon lon|)))

/-- The wind-client lookup (`_process_grib_data`, gfs_wind_client.py,
158-160): the raw signed longitude is used as passed in — the `lon + 360`
adjustment at lines 50-51 rebinds a local of `_build_grib_filter_url` only. -/
def windNearestIndex (lats lons : List ℚ) (lat lon : ℚ) : Nat × Nat :=
  (argmin (lats.map (fun g => |g - lat|)),
   argmin (lons.map (fun g => |g - lon|)))

/-! ## Grouped-field completeness (src/services/wave_data_processor.py, 243-315)

Per-variable, per-timestamp extracted values: the outer `Option` is whether the
variable exists in the dataset at all (`src in point_data`), the inner `Option`
is whether the value at this timestamp is a number (`not pd.isna(val)`).
`round(x, 1)` is embedded as half-up rounding to one decimal (see the
`_calculate_wind` note on ties). -/

def roundTo1 (x : ℚ) : ℚ := (round (10 * x) : ℤ) / 10

structure WaveOut where
  height : Option ℚ
  period : Option ℚ
  direction : Option ℚ
  windHeight : Option ℚ
  windPeriod : Option ℚ
  windDirection : Option ℚ
deriving DecidableEq, Repr

/-- The `wave` dict of one forecast timestamp: primary fields added
independently when present (lines 271-275); the wind-wave triple merged only
when all three variables exist (line 285) and all three values are numbers
(line 293), otherwise dropped entirely. -/
def buildWaveDict (ph pp pd wh wp wd : Option (Option ℚ)) : WaveOut :=
  let primary : WaveOut :=
    { height := match ph with | some (some v) => some (roundTo1 v) | _ => none
      period := match pp with | some (some v) => some (roundTo1 v) | _ => none
      direction := match pd with | some (some v) => some (roundTo1 v) | _ => none
      windHeight := none, windPeriod := none, windDirection := none }
  match wh, wp, wd with
  | some hv, some pv, some dv =>
    match hv, pv, dv with
    | some a, some b, some c =>
      { primary with windHeight := some (roundTo1 a), windPeriod := some (roundTo1 b),
                     windDirection := some (roundTo1 c) }
    | _, _, _ => primary
  | _, _, _ => primary

/-- The swell sequence of one forecast timestamp (lines 296-309): nothing
unless all three swell variables exist; then one component per rank `j < 3`
exactly when height, period and direction are all numbers at that rank. -/
def buildSwell (sh sp sd : Option (Fin 3 → Option ℚ)) : List (ℚ × ℚ × ℚ) :=
  match sh, sp, sd with
  | some hf, some pf, some df =>
    (List.finRange 3).filterMap (fun j =>
      match hf j, pf j, df j with
      | some a, some b, some c => some (roundTo1 a, roundTo1 b, roundTo1 c)
      | _, _, _ => none)
  | _, _, _ => []

/-! ## Concrete oracle inputs used by witness theorems -/

def fetchW : Nat → Option WindPoint :=
  fun h => if h = 3 then some ⟨3, 1, 2, 3⟩ else none

def hfW : Fin 3 → Option ℚ := fun j => if j = 0 then some 1 else none

def pfW : Fin 3 → Option ℚ := fun j => if j = 0 then some 2 else none

def dfW : Fin 3 → Option ℚ := fun j => if j = 0 then some 3 else none

/-! ## Theorems -/

theorem filter_insertByKey {α : Type} (k : α → Int) (t : Int) (x : α) (l : List α) :
    (insertByKey k x l).filter (fun a => decide (k a = t)) =
      if k x = t then x :: l.filter (fun a => decide (k a = t))
      else l.filter (fun a => decide (k a = t)) := by
  induction l with
  | nil =>
    by_cases hxt : k x = t <;> simp [insertByKey, hxt]
  | cons y ys ih =>
    by_cases hlt : k y < k x
    · simp only [insertByKey, if_pos hlt, List.filter_cons]
      by_cases hxt : k x = t
      · have hyt : ¬ k y = t := by omega
        simp [hyt, hxt, ih]
      · by_cases hyt : k y = t <;> simp [hyt, hxt, ih]
    · simp only [insertByKey, if_neg hlt, List.filter_cons]
      by_cases hxt : k x = t <;> by_cases hyt : k y = t <;> simp [hxt, hyt]

theorem filter_sortByKey {α : Type} (k : α → Int) (t : Int) (l : List α) :
    (sortByKey k l).filter (fun a => decide (k a = t)) =
      l.filter (fun a => decide (k a = t)) := by
  induction l with
  | nil => rfl
  | cons x xs ih =>
    rw [sortByKey, filter_insertByKey, ih, List.filter_cons]
    by_cases hxt : k x = t
    · simp [hxt]
    · simp [hxt]

theorem insertByKey_perm {α : Type} (k : α → Int) (x : α) (l : List α) :
    (insertByKey k x l).Perm (x :: l) := by
  induction l with
  | nil => exact List.Perm.refl _
  | cons y ys ih =>
    by_cases hlt : k y < k x
    · simp only [insertByKey, if_pos hlt]
      exact (ih.cons y).trans (List.Perm.swap x y ys)
    · simp only [insertByKey, if_neg hlt]
      exact List.Perm.refl _

theorem sortByKey_perm {α : Type} (k : α → Int) (l : List α) :
    (sortByKey k l).Perm l := by
  induction l with
  | nil => exact List.Perm.refl _
  | cons x xs ih =>
    exact (insertByKey_perm k x (sortByKey k xs)).trans (ih.cons x)

theorem pairwise_insertByKey {α : Type} (k : α → Int) (x : α) (l : List α)
    (h : l.Pairwise (fun a b => k a ≤ k b)) :
    (insertByKey k x l).Pairwise (fun a b => k a ≤ k b) := by
  induction l with
  | nil => simp [insertByKey]
  | cons y ys ih =>
    rcases List.pairwise_cons.mp h with ⟨hy, hys⟩
    by_cases hlt : k y < k x
    · simp only [insertByKey, if_pos hlt]
      refine List.pairwise_cons.mpr ⟨?_, ih hys⟩
      intro z hz
      have hz' : z ∈ x :: ys := (insertByKey_perm k x ys).mem_iff.mp hz
      rcases List.mem_cons.mp hz' with rfl | hz''
      · omega
      · exact hy z hz''
    · simp only [insertByKey, if_neg hlt]
      refine List.pairwise_cons.mpr ⟨?_, h⟩
      intro z hz
      rcases List.mem_cons.mp hz with rfl | hz'
      · omega
      · have := hy z hz'
        omega

theorem sortByKey_pairwise {α : Type} (k : α → Int) (l : List α) :
    (sortByKey k l).Pairwise (fun a b => k a ≤ k b) := by
  induction l with
  | nil => simp [sortByKey]
  | cons x xs ih => exact pairwise_insertByKey k x _ ih

theorem dedupByKey_subset {α : Type} (k : α → Int) (l : List α) :
    ∀ a ∈ dedupByKey k l, a ∈ l := by
  induction l using dedupByKey.induct k with
  | case1 => intro a ha; simp [dedupByKey] at ha
  | case2 x xs ih =>
    intro a ha
    simp only [dedupByKey, List.mem_cons] at ha
    rcases ha with rfl | ha
    · exact List.mem_cons_self _ _
    · exact List.mem_cons_of_mem _ (List.mem_filter.mp (ih a ha)).1

theorem dedupByKey_pairwise {α : Type} (k : α → Int) (l : List α)
    (h : l.Pairwise (fun a b => k a ≤ k b)) :
    (dedupByKey k l).Pairwise (fun a b => k a < k b) := by
  induction l using dedupByKey.induct k with
  | case1 => simp [dedupByKey]
  | case2 x xs ih =>
    rcases List.pairwise_cons.mp h with ⟨hx, hxs⟩
    simp only [dedupByKey]
    refine List.pairwise_cons.mpr ⟨?_, ih (hxs.sublist (List.filter_sublist xs))⟩
    intro z hz
    have hzf := dedupByKey_subset k _ z hz
    rcases List.mem_filter.mp hzf with ⟨hzx, hzp⟩
    have hzne : ¬ k z = k x := by simpa using hzp
    have := hx z hzx
    omega

theorem filter_dedupByKey {α : Type} (k : α → Int) (t : Int) (l : List α) :
    (dedupByKey k l).filter (fun a => decide (k a = t)) =
      (l.filter (fun a => decide (k a = t))).take 1 := by
  induction l using dedupByKey.induct k with
  | case1 => simp [dedupByKey]
  | case2 x xs ih =>
    by_cases hxt : k x = t
    · have htail :
          ((xs.filter fun y => decide (k y ≠ k x)).filter
            (fun a => decide (k a = t))) = [] := by
        rw [List.filter_filter]
        refine List.filter_eq_nil_iff.mpr ?_
        intro a _
        by_cases hat : k a = t
        · simp [hat, hxt]
        · simp [hat]
      simp only [dedupByKey, List.filter_cons]
      rw [ih, htail]
      simp [hxt]
    · have htail :
          ((xs.filter fun y => decide (k y ≠ k x)).filter
            (fun a => decide (k a = t))) = xs.filter (fun a => decide (k a = t)) := by
        rw [List.filter_filter]
        refine List.filter_congr ?_
        intro a _
        by_cases hat : k a = t
        · have hax : (t : Int) ≠ k x := by omega
          simp [hat, hax]
        · simp [hat]
      simp only [dedupByKey, List.filter_cons]
      rw [ih, htail]
      simp [hxt]

/-- C4: the assembled dataset has strictly increasing timestamps (hence at most
one slice per timestamp, ascending order), and for every timestamp `t` the
slice kept is exactly the first slice with timestamp `t` in the input order —
the input is built by iterating the needed runs in resolver order (primary
cycle first), so ties at a timestamp keep the primary cycle's slice. -/
theorem dedupSeen_eq_dedupByKey {α : Type} (k : α → Int) (l : List α) :
    ∀ seen : List Int,
      dedupSeen k seen l = dedupByKey k (l.filter (fun y => decide (k y ∉ seen))) := by
  induction l with
  | nil => intro seen; simp [dedupSeen, dedupByKey]
  | cons x xs ih =>
    intro seen
    by_cases hx : k x ∈ seen
    · have hd : (decide (k x ∉ seen)) = false := by simpa using hx
      simp only [dedupSeen, if_pos hx, List.filter_cons, hd]
      simpa using ih seen
    · have hd : (decide (k x ∉ seen)) = true := by simpa using hx
      simp only [dedupSeen, if_neg hx, List.filter_cons, hd, if_pos]
      rw [dedupByKey, ih (k x :: seen), List.filter_filter]
      have hpt : ∀ y ∈ xs,
          (decide (k y ≠ k x) && decide (k y ∉ seen)) =
            decide (k y ∉ k x :: seen) := by
        intro y _
        by_cases h1 : k y = k x <;> by_cases h2 : k y ∈ seen <;> simp [h1, h2]
      rw [List.filter_congr hpt]

theorem assembleDatasets_eq_dedupByKey (l : List Slice) :
    assembleDatasets l = dedupByKey Slice.time (sortByKey Slice.time l) := by
  rw [assembleDatasets, dedupSeen_eq_dedupByKey]
  congr 1
  simp [List.filter_true]

theorem assembleDatasets_dedup_sorted_first_wins (l : List Slice) :
    ((assembleDatasets l).map Slice.time).Pairwise (fun a b => a < b) ∧
      ∀ t : Int, (assembleDatasets l).filter (fun s => decide (s.time = t)) =
        (l.filter (fun s => decide (s.time = t))).take 1 := by
  rw [assembleDatasets_eq_dedupByKey]
  constructor
  · exact List.pairwise_map.mpr
      (dedupByKey_pairwise Slice.time _ (sortByKey_pairwise Slice.time l))
  · intro t
    rw [filter_dedupByKey, filter_sortByKey]

/-! ## Generic helper lemmas -/

theorem argminList_eq_none_iff (l : List ℚ) : argminList l = none ↔ l = [] := by
  cases l with
  | nil => simp [argminList]
  | cons a rest =>
    simp only [argminList]
    cases argminList rest with
    | none => simp
    | some p =>
      rcases p with ⟨j, v⟩
      by_cases hv : v < a <;> simp [hv]

theorem argminList_first_min (l : List ℚ) :
    ∀ (i : Nat) (v : ℚ), argminList l = some (i, v) →
      i < l.length ∧ l.getD i 0 = v ∧ (∀ j, j < l.length → v ≤ l.getD j 0) ∧
        (∀ j, j < i → v < l.getD j 0) := by
  induction l with
  | nil => intro i v h; simp [argminList] at h
  | cons a rest ih =>
    intro i v h
    cases har : argminList rest with
    | none =>
      have hrest : rest = [] := (argminList_eq_none_iff rest).mp har
      have he : argminList (a :: rest) = some (0, a) := by
        simp [argminList, har]
      rw [he] at h
      have h2 := Option.some.inj h
      rw [Prod.mk.injEq] at h2
      obtain ⟨hi, hv⟩ := h2
      subst hrest
      subst hi
      subst hv
      refine ⟨by simp, by simp, ?_, by omega⟩
      intro j hj
      have hj0 : j = 0 := by simpa using hj
      subst hj0
      simp
    | some p =>
      rcases p with ⟨j, w⟩
      rcases ih j w har with ⟨hj, hval, hmin, hfirst⟩
      by_cases hvw : w < a
      · have he : argminList (a :: rest) = some (j + 1, w) := by
          simp [argminList, har, hvw]
        rw [he] at h
        have h2 := Option.some.inj h
        rw [Prod.mk.injEq] at h2
        obtain ⟨hi, hv⟩ := h2
        subst hi
        subst hv
        refine ⟨by simp; omega, by simpa using hval, ?_, ?_⟩
        · intro jj hjj
          cases jj with
          | zero => simpa using le_of_lt hvw
          | succ kk =>
            simp only [List.getD_cons_succ]
            exact hmin kk (by simp at hjj; omega)
        · intro jj hjj
          cases jj with
          | zero => simpa using hvw
          | succ kk =>
            simp only [List.getD_cons_succ]
            exact hfirst kk (by omega)
      · have he : argminList (a :: rest) = some (0, a) := by
          simp [argminList, har, hvw]
        rw [he] at h
        have h2 := Option.some.inj h
        rw [Prod.mk.injEq] at h2
        obtain ⟨hi, hv⟩ := h2
        subst hi
        subst hv
        refine ⟨by simp, by simp, ?_, by omega⟩
        intro jj hjj
        cases jj with
        | zero => simp
        | succ kk =>
          simp only [List.getD_cons_succ]
          exact le_trans (not_lt.mp hvw) (hmin kk (by simp at hjj; omega))

theorem getD_map_absdiff (f : ℚ → ℚ) (l : List ℚ) (k : Nat) (hk : k < l.length) :
    (l.map f).getD k 0 = f (l.getD k 0) := by
  rw [List.getD_eq_getElem?_getD, List.getD_eq_getElem?_getD, List.getElem?_map,
    List.getElem?_eq_getElem hk]
  rfl

theorem argmin_absdiff_min (grid : List ℚ) (x : ℚ) (hne : grid ≠ []) :
    argmin (grid.map (fun g => |g - x|)) < grid.length ∧
    (∀ k, k < grid.length →
      |grid.getD (argmin (grid.map (fun g => |g - x|))) 0 - x| ≤ |grid.getD k 0 - x|) ∧
    (∀ k, k < argmin (grid.map (fun g => |g - x|)) →
      |grid.getD (argmin (grid.map (fun g => |g - x|))) 0 - x| < |grid.getD k 0 - x|) := by
  have hm : grid.map (fun g => |g - x|) ≠ [] := by
    simpa using hne
  cases har : argminList (grid.map (fun g => |g - x|)) with
  | none => exact absurd ((argminList_eq_none_iff _).mp har) hm
  | some p =>
    rcases p with ⟨i, v⟩
    rcases argminList_first_min _ i v har with ⟨hi, hval, hmin, hfirst⟩
    have hargmin : argmin (grid.map (fun g => |g - x|)) = i := by
      simp [argmin, har]
    rw [hargmin]
    have hlen : (grid.map (fun g => |g - x|)).length = grid.length := by simp
    have hvi : v = |grid.getD i 0 - x| := by
      rw [← hval, getD_map_absdiff _ _ _ (by omega)]
    refine ⟨by omega, ?_, ?_⟩
    · intro k hk
      have := hmin k (by omega)
      rwa [getD_map_absdiff _ _ _ hk, hvi] at this
    · intro k hk
      have hk' : k < grid.length := by omega
      have := hfirst k hk
      rwa [getD_map_absdiff _ _ _ hk', hvi] at this

theorem collectSlices_no_files (date runHour : Int)
    (openSlice : Int → Nat → Option Nat) (fh : List Nat) :
    ∀ (runs : List (Int × Int)) (acc : List Slice) (anyOpened : Bool),
      collectSlices date runHour (fun _ _ => false) openSlice fh runs acc anyOpened =
        .ok (acc, anyOpened) := by
  intro runs
  induction runs with
  | nil => intro acc anyOpened; rfl
  | cons r rest ih =>
    intro acc anyOpened
    rcases r with ⟨rd, rh⟩
    simp only [collectSlices, Bool.and_false, List.filter_false]
    exact ih acc anyOpened

/-! ## Claim theorems -/

/-- C1 (code bug): the direction computed by `_calculate_wind` contains no
arctangent term — it evaluates to 90 whenever `v ≠ 0` (whatever `u` is) and to
270 when `v = 0` — whereas the claimed rule `(270 − atan2(v, u)·180/π) mod 360`
yields 180 at `(u, v) = (0, 1)`.  The speed component does match the claim
(`sqrt(u² + v²)`, here at `(3, 4)`). -/
theorem calculateWind_direction_contradicts_atan2_rule :
    calculateWindDirection 0 1 = 90 ∧ calculateWindDirection 3 (-4) = 90 ∧
    calculateWindDirection 2 0 = 270 ∧ claimedWindDirection 0 1 = 180 ∧
    ((90 : ℝ) ≠ 180) ∧ calculateWindSpeed 3 4 = 5 := by
  refine ⟨?_, ?_, ?_, ?_, by norm_num, ?_⟩
  · unfold calculateWindDirection roundTo2 pyModQ pyBoolToRat
    norm_num [round_eq]
  · unfold calculateWindDirection roundTo2 pyModQ pyBoolToRat
    norm_num [round_eq]
  · unfold calculateWindDirection roundTo2 pyModQ pyBoolToRat
    norm_num [round_eq]
  · have hatan : atan2 1 0 = Real.pi / 2 := by
      unfold atan2
      norm_num
    have harg : (270 : ℝ) - atan2 1 0 * (180 / Real.pi) = 180 := by
      rw [hatan]
      have hpi := Real.pi_ne_zero
      field_simp
      ring
    unfold claimedWindDirection pyModR
    rw [harg]
    have hfloor : ⌊(180 : ℝ) / 360⌋ = 0 := by
      rw [Int.floor_eq_zero_iff]
      constructor <;> norm_num
    rw [hfloor]
    norm_num
  · unfold calculateWindSpeed
    have hsq : Real.sqrt (3 * 3 + 4 * 4) = 5 := by
      rw [show (3 * 3 + 4 * 4 : ℝ) = 5 ^ 2 by norm_num]
      exact Real.sqrt_sq (by norm_num)
    rw [hsq, show (100 * (5 : ℝ)) = ((500 : ℤ) : ℝ) by norm_num, round_intCast]
    norm_num

/-- C2 (code bug): `cleanup_old_files` tests the glob pattern
`*_{date}_{cycle}z_*.grib2` with a plain substring check; no real path contains
the character `*`, so the check never matches and the current run's own cached
file is deleted.  Evaluated at current run (2024-05-01, 12Z) and the file
`get_file_path` produces for station 44098, hour 3, of that very run. -/
theorem cleanup_deletes_current_run_file :
    cleanupDeletes "20240501" 12 (getFilePath "44098" "20240501" 12 3) = true := by
  decide

/-- C3 (code bug): the dataset cache hit compares only the cycle hour, not the
(date, cycle hour) pair.  First call: a dataset is built and cached for run
(date 100, 12Z).  Second call: run (date 101, 12Z) is requested while *no*
file exists and every open fails, yet the day-old dataset is returned as a
cache hit. -/
theorem cache_hit_ignores_run_date :
    loadForecastDataset ⟨none, none⟩ 100 12 144930
        (fun rh h => decide (rh = 12) && decide (h = 0)) (fun _ _ => some 7) [0] =
      (some [⟨144720, 7⟩], ⟨some [⟨144720, 7⟩], some 12⟩) ∧
    loadForecastDataset ⟨some [⟨144720, 7⟩], some 12⟩ 101 12 146370
        (fun _ _ => false) (fun _ _ => none) [0] =
      (some [⟨144720, 7⟩], ⟨some [⟨144720, 7⟩], some 12⟩) ∧
    (100 : Int) ≠ 101 := by
  refine ⟨by decide, by decide, by decide⟩

/-- C6 counterexample: the cached dataset was built for cycle hour 6, a fresh
load is requested for cycle hour 12, the run-12 file exists but its open fails
(first failure, so the handler's unbound-`ds` access raises into the outer
handler): the loader returns the run-6 dataset, although no cached dataset for
the requesting run key exists — the claim required the no-data outcome here. -/
theorem load_returns_foreign_cached_dataset :
    loadForecastDataset ⟨some [⟨5, 9⟩], some 6⟩ 200 12 288930
        (fun rh h => decide (rh = 12) && decide (h = 0)) (fun _ _ => none) [0] =
      (some [⟨5, 9⟩], ⟨some [⟨5, 9⟩], some 6⟩) ∧
    (6 : Int) ≠ 12 := by
  refine ⟨by decide, by decide⟩

/-- C6 as amended: on a cache miss, (a) when no needed-run file exists on disk
the loader reports no data even if a cached dataset exists; (b) when loading
raises (modelled: `collectSlices` errors) the loader returns whatever dataset
is cached — for any run key — or `none`; (c) a `none` dataset makes
`process_station_forecast` return an empty forecast list with status
"no_data". -/
theorem load_total_failure_behavior (st : LoadState) (date runHour now : Int)
    (openSlice : Int → Nat → Option Nat) (fh : List Nat)
    (hmiss : ¬ (st.cachedDataset.isSome ∧ st.cachedModelRun = some runHour)) :
    (loadForecastDataset st date runHour now (fun _ _ => false) openSlice fh).1 =
      none ∧
    (∀ fe, collectSlices date runHour fe openSlice fh
        (neededRuns date runHour now) [] false = .error () →
      loadForecastDataset st date runHour now fe openSlice fh =
        (st.cachedDataset, st)) ∧
    (∀ sid build, processStationForecast sid none build = ⟨sid, [], some "no_data"⟩) := by
  refine ⟨?_, ?_, ?_⟩
  · rw [loadForecastDataset, if_neg hmiss]
    by_cases hr : (neededRuns date runHour now).isEmpty
    · simp [hr]
    · simp only [hr, if_neg, Bool.false_eq_true, not_false_iff]
      rw [collectSlices_no_files]
      simp
  · intro fe hcol
    rw [loadForecastDataset, if_neg hmiss]
    by_cases hr : (neededRuns date runHour now).isEmpty
    · have : neededRuns date runHour now = [] := by
        simpa [List.isEmpty_iff] using hr
      rw [this] at hcol
      simp [collectSlices] at hcol
    · simp only [hr, if_neg, Bool.false_eq_true, not_false_iff]
      rw [hcol]
  · intro sid build
    rfl

theorem load_total_failure_behavior_witness :
    (loadForecastDataset ⟨some [⟨5, 9⟩], some 6⟩ 300 12 0
        (fun _ _ => false) (fun _ _ => none) [0]).1 = none ∧
    processStationForecast "44098" none (fun _ => []) = ⟨"44098", [], some "no_data"⟩ :=
  ⟨(load_total_failure_behavior ⟨some [⟨5, 9⟩], some 6⟩ 300 12 0
      (fun _ _ => none) [0] (by decide)).1,
   (load_total_failure_behavior ⟨some [⟨5, 9⟩], some 6⟩ 300 12 0
      (fun _ _ => none) [0] (by decide)).2.2 "44098" (fun _ => [])⟩

/-- C8: a candidate run — the requested cycle `(date, runHour)` or the
previous cycle (six hours earlier, rolling back to the previous day's 18Z
cycle when needed) — is in the set of runs to load iff the current time is at
least 210 minutes (3h30m) past its nominal time; and when no cycle qualifies
the loader reports no data rather than fabricating a run. -/
theorem neededRuns_latency_gate (date runHour now : Int) :
    ((date, runHour) ∈ neededRuns date runHour now ↔
      210 ≤ now - nominalTime (date, runHour)) ∧
    (prevRunOf date runHour ∈ neededRuns date runHour now ↔
      210 ≤ now - nominalTime (prevRunOf date runHour)) ∧
    (neededRuns date runHour now = [] →
      ∀ (st : LoadState) (fe : Int → Nat → Bool) (op : Int → Nat → Option Nat)
        (fh : List Nat),
        ¬ (st.cachedDataset.isSome ∧ st.cachedModelRun = some runHour) →
        loadForecastDataset st date runHour now fe op fh = (none, st)) := by
  have hne : prevRunOf date runHour ≠ (date, runHour) := by
    unfold prevRunOf
    by_cases hmem : runHour - 6 ∈ modelRunsConfig
    · simp only [hmem, if_pos]
      intro hcontra
      rw [Prod.mk.injEq] at hcontra
      omega
    · simp only [hmem, if_neg, not_false_iff]
      intro hcontra
      rw [Prod.mk.injEq] at hcontra
      omega
  refine ⟨?_, ?_, ?_⟩
  · by_cases h1 : 210 ≤ now - nominalTime (date, runHour) <;>
      by_cases h2 : 210 ≤ now - nominalTime (prevRunOf date runHour) <;>
        simp [neededRuns, h1, h2, Ne.symm hne]
  · by_cases h1 : 210 ≤ now - nominalTime (date, runHour) <;>
      by_cases h2 : 210 ≤ now - nominalTime (prevRunOf date runHour) <;>
        simp [neededRuns, h1, h2, hne]
  · intro hempty st fe op fh hmiss
    rw [loadForecastDataset, if_neg hmiss]
    simp [hempty]

theorem neededRuns_latency_gate_witness :
    ((300, 12) ∉ neededRuns 300 12 432929) ∧
    ((300, 12) ∈ neededRuns 300 12 432931) ∧
    loadForecastDataset ⟨none, none⟩ 300 12 100
        (fun _ _ => false) (fun _ _ => none) [0] = (none, ⟨none, none⟩) :=
  ⟨fun hmem => absurd ((neededRuns_latency_gate 300 12 432929).1.mp hmem) (by decide),
   (neededRuns_latency_gate 300 12 432931).1.mpr (by decide),
   (neededRuns_latency_gate 300 12 100).2.2 (by decide) ⟨none, none⟩
     (fun _ _ => false) (fun _ _ => none) [0] (by decide)⟩

/-- C5: `get_station_wind_forecast` (with a model run present) raises the
503 "unavailable" outcome exactly when every requested forecast hour fails to
yield data; otherwise it returns exactly one point per succeeded hour (the
result is a permutation of the per-hour successes), sorted ascending by time.
Per-hour failures only ever remove that hour (`continue`), never the request. -/
theorem windForecast_unavailable_iff_all_hours_fail (fetch : Nat → Option WindPoint) :
    (getStationWindForecast (some ()) fetch = .error () ↔
      ∀ h ∈ windForecastHours, fetch h = none) ∧
    (∀ l, getStationWindForecast (some ()) fetch = .ok l →
      l.Perm (windForecastHours.filterMap fetch) ∧
      (l.map WindPoint.time).Pairwise (fun a b => a ≤ b)) := by
  constructor
  · constructor
    · intro he
      by_cases hemp : (windForecastHours.filterMap fetch).isEmpty
      · exact List.filterMap_eq_nil_iff.mp (List.isEmpty_iff.mp hemp)
      · simp only [getStationWindForecast, hemp, Bool.false_eq_true, if_neg,
          not_false_iff] at he
        exact Except.noConfusion he
    · intro hall
      have hemp : (windForecastHours.filterMap fetch).isEmpty = true := by
        rw [List.isEmpty_iff]
        exact List.filterMap_eq_nil_iff.mpr hall
      simp [getStationWindForecast, hemp]
  · intro l hl
    by_cases hemp : (windForecastHours.filterMap fetch).isEmpty
    · simp [getStationWindForecast, hemp] at hl
    · simp only [getStationWindForecast, hemp, Bool.false_eq_true, if_neg,
        not_false_iff, Except.ok.injEq] at hl
      subst hl
      refine ⟨sortByKey_perm _ _, ?_⟩
      exact List.pairwise_map.mpr (sortByKey_pairwise WindPoint.time _)

theorem windForecast_unavailable_iff_all_hours_fail_witness :
    ([⟨3, 1, 2, 3⟩] : List WindPoint).Perm (windForecastHours.filterMap fetchW) ∧
    (([⟨3, 1, 2, 3⟩] : List WindPoint).map WindPoint.time).Pairwise
      (fun a b => a ≤ b) :=
  (windForecast_unavailable_iff_all_hours_fail fetchW).2 [⟨3, 1, 2, 3⟩] (by rfl)

/-- C7: `_get_grib_file` returns the cached path whatever the network oracle
would do whenever the file already exists; otherwise it is absent exactly on a
timeout, a transport error, a 404, any other non-200 status, a payload under
100 bytes, or a failed save — and returns the persisted path on a 200 with an
adequate payload and a successful save. -/
theorem getGribFile_absent_iff (cached : Bool) (path : String) (o : FetchOutcome)
    (saveOk : Bool) :
    (cached = true → getGribFile cached path o saveOk = some path) ∧
    (cached = false →
      ((getGribFile cached path o saveOk = none ↔
        o = .timeout ∨ o = .transportError ∨
        (∃ len, o = .http 404 len) ∨
        (∃ s len, o = .http s len ∧ s ≠ 200) ∨
        (∃ len, o = .http 200 len ∧ len < 100) ∨
        (∃ len, o = .http 200 len ∧ 100 ≤ len ∧ saveOk = false)) ∧
      (∀ len, o = .http 200 len → 100 ≤ len → saveOk = true →
        getGribFile cached path o saveOk = some path))) := by
  constructor
  · intro hc
    subst hc
    simp [getGribFile]
  · intro hc
    subst hc
    constructor
    · cases o with
      | timeout => simp [getGribFile]
      | transportError => simp [getGribFile]
      | http s len =>
        by_cases h404 : s = 404
        · subst h404
          simp [getGribFile]
        · by_cases h200 : s = 200
          · subst h200
            by_cases hlen : len < 100
            · simp [getGribFile, hlen, FetchOutcome.http.injEq]
            · cases saveOk with
              | false =>
                simp [getGribFile, hlen, FetchOutcome.http.injEq]
                omega
              | true =>
                simp [getGribFile, hlen, FetchOutcome.http.injEq]
          · simp [getGribFile, h404, h200, FetchOutcome.http.injEq]
    · intro len ho hlen hsave
      subst ho
      subst hsave
      simp [getGribFile]
      omega

theorem getGribFile_absent_iff_witness :
    getGribFile false "p.grib2" (.http 200 50) true = none ∧
    getGribFile false "p.grib2" (.http 200 150) true = some "p.grib2" ∧
    getGribFile true "p.grib2" (.http 500 0) false = some "p.grib2" :=
  ⟨(((getGribFile_absent_iff false "p.grib2" (.http 200 50) true).2 rfl).1).mpr
      (Or.inr (Or.inr (Or.inr (Or.inr (Or.inl ⟨50, rfl, by omega⟩))))),
   ((getGribFile_absent_iff false "p.grib2" (.http 200 150) true).2 rfl).2
      150 rfl (by omega) rfl,
   (getGribFile_absent_iff true "p.grib2" (.http 500 0) false).1 rfl⟩

theorem swell_filterMap_eq (hf pf df : Fin 3 → Option ℚ) (l : List (Fin 3)) :
    l.filterMap (fun j =>
      match hf j, pf j, df j with
      | some a, some b, some c => some (roundTo1 a, roundTo1 b, roundTo1 c)
      | _, _, _ => none) =
    (l.filter (fun j => (hf j).isSome && (pf j).isSome && (df j).isSome)).map
      (fun j => (roundTo1 ((hf j).getD 0), roundTo1 ((pf j).getD 0),
        roundTo1 ((df j).getD 0))) := by
  induction l with
  | nil => rfl
  | cons x xs ih =>
    rcases hhx : hf x with _ | a <;> rcases hpx : pf x with _ | b <;>
      rcases hdx : df x with _ | c <;>
        simp [List.filterMap_cons, List.filter_cons, hhx, hpx, hdx, ih]

/-- C9: the secondary wind-wave triple appears in the per-timestamp wave group
iff all three of (wind height, wind period, wind direction) are present — each
of the three output fields is populated exactly under that same condition, so
none of them appears when any is missing; and the swell sequence consists of
exactly the ranks whose height, period and direction are all present (in rank
order, nothing padded), with nothing emitted when a swell variable is missing
from the dataset entirely. -/
theorem grouped_completeness (ph pp pd wh wp wd : Option (Option ℚ))
    (sh sp sd : Option (Fin 3 → Option ℚ)) :
    ((buildWaveDict ph pp pd wh wp wd).windHeight.isSome ↔
      ((∃ a, wh = some (some a)) ∧ (∃ b, wp = some (some b)) ∧
        (∃ c, wd = some (some c)))) ∧
    ((buildWaveDict ph pp pd wh wp wd).windPeriod.isSome ↔
      ((∃ a, wh = some (some a)) ∧ (∃ b, wp = some (some b)) ∧
        (∃ c, wd = some (some c)))) ∧
    ((buildWaveDict ph pp pd wh wp wd).windDirection.isSome ↔
      ((∃ a, wh = some (some a)) ∧ (∃ b, wp = some (some b)) ∧
        (∃ c, wd = some (some c)))) ∧
    (∀ hf pf df, sh = some hf → sp = some pf → sd = some df →
      buildSwell sh sp sd =
        ((List.finRange 3).filter
          (fun j => (hf j).isSome && (pf j).isSome && (df j).isSome)).map
          (fun j => (roundTo1 ((hf j).getD 0), roundTo1 ((pf j).getD 0),
            roundTo1 ((df j).getD 0)))) ∧
    (sh = none ∨ sp = none ∨ sd = none → buildSwell sh sp sd = []) := by
  refine ⟨?_, ?_, ?_, ?_, ?_⟩
  · rcases wh with _ | (_ | a) <;> rcases wp with _ | (_ | b) <;>
      rcases wd with _ | (_ | c) <;> simp [buildWaveDict]
  · rcases wh with _ | (_ | a) <;> rcases wp with _ | (_ | b) <;>
      rcases wd with _ | (_ | c) <;> simp [buildWaveDict]
  · rcases wh with _ | (_ | a) <;> rcases wp with _ | (_ | b) <;>
      rcases wd with _ | (_ | c) <;> simp [buildWaveDict]
  · intro hf pf df hsh hsp hsd
    subst hsh
    subst hsp
    subst hsd
    simp only [buildSwell]
    exact swell_filterMap_eq hf pf df (List.finRange 3)
  · intro h
    rcases sh with _ | hf
    · rcases sp with _ | pf2 <;> rcases sd with _ | df2 <;> simp [buildSwell]
    · rcases sp with _ | pf2
      · rcases sd with _ | df2 <;> simp [buildSwell]
      · rcases sd with _ | df2
        · simp [buildSwell]
        · rcases h with h | h | h <;> exact Option.noConfusion h

theorem grouped_completeness_witness :
    (buildWaveDict none none none (some (some 1)) (some (some 2))
      (some (some 3))).windHeight.isSome ∧
    buildSwell (some hfW) (some pfW) (some dfW) =
      ((List.finRange 3).filter
        (fun j => (hfW j).isSome && (pfW j).isSome && (dfW j).isSome)).map
        (fun j => (roundTo1 ((hfW j).getD 0), roundTo1 ((pfW j).getD 0),
          roundTo1 ((dfW j).getD 0))) :=
  ⟨(grouped_completeness none none none (some (some 1)) (some (some 2))
      (some (some 3)) (some hfW) (some pfW) (some dfW)).1.mpr
      ⟨⟨1, rfl⟩, ⟨2, rfl⟩, ⟨3, rfl⟩⟩,
   (grouped_completeness none none none (some (some 1)) (some (some 2))
      (some (some 3)) (some hfW) (some pfW) (some dfW)).2.2.2.1 hfW pfW dfW
      rfl rfl rfl⟩

/-- C10 counterexample: the wind-client lookup does not normalize a negative
station longitude the way the claim states.  At station longitude -69.85 over
grid longitudes [290, 290.25], `_process_grib_data`'s argmin (over the raw
signed value) picks column 0, whereas the claimed normalized search (over
-69.85 + 360 = 290.15) picks column 1. -/
theorem windNearestIndex_ignores_lon_normalization :
    (windNearestIndex [40] [290, 290.25] 40 (-69.85)).2 = 0 ∧
    argmin (([290, 290.25] : List ℚ).map
      (fun g => |g - normalizeLon (-69.85)|)) = 1 := by
  constructor
  · have hlt : ¬ |(290.25 : ℚ) + 69.85| < |(290 : ℚ) + 69.85| := by
      rw [abs_of_nonneg (by norm_num : (0 : ℚ) ≤ 290.25 + 69.85),
        abs_of_nonneg (by norm_num : (0 : ℚ) ≤ 290 + 69.85)]
      norm_num
    simp [windNearestIndex, argmin, argminList, hlt]
  · have hn : normalizeLon (-69.85 : ℚ) = 290.15 := by
      rw [normalizeLon, if_pos] <;> norm_num
    have hlt : |(290.25 : ℚ) - 290.15| < |(290 : ℚ) - 290.15| := by
      rw [abs_of_nonneg (by norm_num : (0 : ℚ) ≤ 290.25 - 290.15),
        abs_of_nonpos (by norm_num : (290 : ℚ) - 290.15 ≤ 0)]
      norm_num
    simp [argmin, argminList, hn, hlt]

/-- C10 as amended: both nearest-index lookups perform two independent 1-D
argmin searches — the row index minimizes |grid latitude − lat| and the column
index minimizes |grid longitude − lon'|, each attaining the minimum and
strictly beating every smaller index (numpy's first-minimum tie-break toward
the lower index) — where lon' is the 0-360-normalized longitude at the wave
path's lookup and the raw signed longitude at the wind client's lookup, whose
`lon + 360` adjustment affects only the download URL. -/
theorem nearestIndex_per_axis_argmin (lats lons : List ℚ) (lat lon : ℚ)
    (h1 : lats ≠ []) (h2 : lons ≠ []) :
    ((waveNearestIndex lats lons lat lon).1 < lats.length ∧
     (waveNearestIndex lats lons lat lon).2 < lons.length ∧
     (∀ k, k < lats.length →
       |lats.getD (waveNearestIndex lats lons lat lon).1 0 - lat| ≤
         |lats.getD k 0 - lat|) ∧
     (∀ k, k < (waveNearestIndex lats lons lat lon).1 →
       |lats.getD (waveNearestIndex lats lons lat lon).1 0 - lat| <
         |lats.getD k 0 - lat|) ∧
     (∀ k, k < lons.length →
       |lons.getD (waveNearestIndex lats lons lat lon).2 0 - normalizeLon lon| ≤
         |lons.getD k 0 - normalizeLon lon|) ∧
     (∀ k, k < (waveNearestIndex lats lons lat lon).2 →
       |lons.getD (waveNearestIndex lats lons lat lon).2 0 - normalizeLon lon| <
         |lons.getD k 0 - normalizeLon lon|)) ∧
    ((windNearestIndex lats lons lat lon).1 < lats.length ∧
     (windNearestIndex lats lons lat lon).2 < lons.length ∧
     (∀ k, k < lats.length →
       |lats.getD (windNearestIndex lats lons lat lon).1 0 - lat| ≤
         |lats.getD k 0 - lat|) ∧
     (∀ k, k < (windNearestIndex lats lons lat lon).1 →
       |lats.getD (windNearestIndex lats lons lat lon).1 0 - lat| <
         |lats.getD k 0 - lat|) ∧
     (∀ k, k < lons.length →
       |lons.getD (windNearestIndex lats lons lat lon).2 0 - lon| ≤
         |lons.getD k 0 - lon|) ∧
     (∀ k, k < (windNearestIndex lats lons lat lon).2 →
       |lons.getD (windNearestIndex lats lons lat lon).2 0 - lon| <
         |lons.getD k 0 - lon|)) := by
  have hlat := argmin_absdiff_min lats lat h1
  have hlonW := argmin_absdiff_min lons (normalizeLon lon) h2
  have hlonG := argmin_absdiff_min lons lon h2
  exact ⟨⟨hlat.1, hlonW.1, hlat.2.1, hlat.2.2, hlonW.2.1, hlonW.2.2⟩,
    ⟨hlat.1, hlonG.1, hlat.2.1, hlat.2.2, hlonG.2.1, hlonG.2.2⟩⟩

theorem nearestIndex_per_axis_argmin_witness :
    (waveNearestIndex [40, 41] [290, 291] (40.2 : ℚ) (-70)).1 < 2 ∧
    (∀ k, k < 2 →
      |([(40 : ℚ), 41]).getD
          (waveNearestIndex [40, 41] [290, 291] (40.2 : ℚ) (-70)).1 0 - 40.2| ≤
        |([(40 : ℚ), 41]).getD k 0 - 40.2|) ∧
    (∀ k, k < 2 →
      |([(290 : ℚ), 291]).getD
          (windNearestIndex [40, 41] [290, 291] (40.2 : ℚ) (-70)).2 0 - (-70)| ≤
        |([(290 : ℚ), 291]).getD k 0 - (-70)|) :=
  ⟨(nearestIndex_per_axis_argmin [40, 41] [290, 291] 40.2 (-70)
      (by simp) (by simp)).1.1,
   (nearestIndex_per_axis_argmin [40, 41] [290, 291] 40.2 (-70)
      (by simp) (by simp)).1.2.2.1,
   (nearestIndex_per_axis_argmin [40, 41] [290, 291] 40.2 (-70)
      (by simp) (by simp)).2.2.2.2.2.1⟩
